import Mathlib

/-!
Shallow embedding of the task-list service's authentication and task layers
(`app/dependencies/auth.py`, `app/routers/auth.py`, `app/routers/todo.py`,
`app/schemas/user.py`, `app/schemas/todo.py`).

Modelling conventions:
* The database session is modelled by explicit state passing over `List User`
  and `List Todo`; a handler returns the store after the request together with
  an `Except ApiError` result.  Error paths leave the store unchanged, matching
  the code, where every `HTTPException` is raised before `db.commit()`.
* `python-jose` signing is modelled by a deterministic signature function of
  the key and the claims; `jwt.decode` checks the signature and then rejects
  tokens whose `exp` is strictly in the past, as the library does.
* `passlib` bcrypt is modelled by a digest that records the salt used, so two
  calls with fresh salts give distinct digests; `verify` recomputes the tag
  from the digest's own salt.
* `zxcvbn` is an external strength estimator; handlers take it as a function
  argument `zx : String → String → ZxcvbnResult` (password, username hint).
* The configuration constants `SECRET_KEY` and `ACCESS_TOKEN_EXPIRE_MINUTES`
  (`app/config.py`, not part of the sources) are parameters `key` and `ttl`.
* The routers wrap every handler body in `try/except Exception`, re-raising
  each inner `HTTPException` as a fresh 400 with the same message content;
  the wrapper never changes which error fires, so each error is recorded here
  at its raise site.  The `404` raises in `todo.py` sit outside the `try`.
* Missing bearer tokens are rejected by `OAuth2PasswordBearer` (declared in
  `app/dependencies/auth.py`) with a 401 before the handler runs; this is the
  `none` case of the optional token below.
-/

deriving instance DecidableEq for Except

namespace TodoApp

/-- Deterministic string hash used to model signatures and bcrypt tags. -/
def strHash (s : String) : Nat :=
  s.data.foldl (fun h c => h * 131 + c.toNat + 1) 7

/-- Hash of an optional claim value, distinguishing a missing claim. -/
def optHash : Option String → Nat
  | none => 0
  | some s => strHash s + 1

/-- JWT claim set produced by `create_access_token`: `sub` (username),
`id` (user id, a UUID string in `schemas/user.py`), `exp` (Unix time).
A claim absent from the payload is `none` (`payload.get` returns `None`). -/
structure Payload where
  sub : Option String
  id : Option String
  exp : Nat
deriving DecidableEq

/-- Model of the HMAC signature over the payload under the process key. -/
def sigOf (key : Nat) (p : Payload) : Nat :=
  ((key * 131 + optHash p.sub) * 131 + optHash p.id) * 131 + p.exp + 1

/-- A compact signed token: claims plus signature segment. -/
structure Token where
  payload : Payload
  sig : Nat
deriving DecidableEq

/-- `jose.jwt.encode`: sign the claims with the process key. -/
def jwtEncode (key : Nat) (p : Payload) : Token :=
  ⟨p, sigOf key p⟩

/-- Failures of `jose.jwt.decode`; both are subclasses of `JWTError`. -/
inductive JWTError where
  | invalidSignature : JWTError
  | expiredSignature : JWTError
deriving DecidableEq

/-- `jose.jwt.decode`: verify the signature, then reject a token whose
`exp` is strictly before the current time. -/
def jwtDecode (key : Nat) (now : Nat) (t : Token) : Except JWTError Payload :=
  if t.sig ≠ sigOf key t.payload then .error .invalidSignature
  else if t.payload.exp < now then .error .expiredSignature
  else .ok t.payload

/-- An `HTTPException`: status code and detail message. -/
structure ApiError where
  status_code : Nat
  detail : String
deriving DecidableEq

/-- A bcrypt digest, recording the salt it was generated with. -/
structure Digest where
  salt : Nat
  tag : Nat
deriving DecidableEq

/-- `bcrypt_context.hash`: salted one-way hash; the salt is fresh randomness
supplied by the caller's environment, so it appears as a parameter. -/
def bcrypt_hash (salt : Nat) (p : String) : Digest :=
  ⟨salt, strHash p * 1000003 + salt⟩

/-- `bcrypt_context.verify`: recompute the tag from the digest's own salt. -/
def bcrypt_verify (p : String) (d : Digest) : Bool :=
  d.tag == strHash p * 1000003 + d.salt

/-- A row of the `users` table (`schemas/user.py`): `id` is the primary key,
`username` carries a UNIQUE constraint, `password` stores the bcrypt digest. -/
structure User where
  id : String
  username : String
  password : Digest
deriving DecidableEq

/-- The resolved identity dict returned by `get_current_user`. -/
structure Identity where
  username : String
  id : String
deriving DecidableEq

/-- Detail of the 401 `OAuth2PasswordBearer` raises when the header is
missing. -/
def notAuthDetail : String := "Not authenticated"

/-- Detail of the 401 raised on a `JWTError` (note the trailing space of the
second raise site in `get_current_user`). -/
def invalidTokenDetail : String := "Could not validate user. "

/-- Detail of the 401 raised on missing claims or a missing user row. -/
def invalidUserDetail : String := "Could not validate user."

/-- `get_current_user` (`app/dependencies/auth.py`): decode the bearer token,
require the `sub` and `id` claims and a live user row with that id, and
return the identity taken from the claims; otherwise 401. -/
def get_current_user (key now : Nat) (token : Option Token) (db : List User) :
    Except ApiError Identity :=
  match token with
  | none => .error ⟨401, notAuthDetail⟩
  | some t =>
    match jwtDecode key now t with
    | .error _ => .error ⟨401, invalidTokenDetail⟩
    | .ok payload =>
      match payload.sub, payload.id with
      | some username, some user_id =>
        if (db.find? (fun u => u.id == user_id)).isSome then
          .ok ⟨username, user_id⟩
        else
          .error ⟨401, invalidUserDetail⟩
      | some _, none => .error ⟨401, invalidUserDetail⟩
      | none, _ => .error ⟨401, invalidUserDetail⟩

/-- Result dict of the `zxcvbn` strength estimator, as consumed by the
routers: numeric `score` (0–4) plus `feedback.warning` and
`feedback.suggestions`.  An empty warning string and an empty suggestion
list are falsy in the Python truth tests. -/
structure ZxcvbnResult where
  score : Nat
  warning : String
  suggestions : List String
deriving DecidableEq

/-- Separator of the `" ".join(...)` call in the weak-password message. -/
def spaceSep : String := " "

/-- Detail string of the weak-password rejection, from the f-string
`f"Weak password:{warning} {joined suggestions}"` — note it interpolates
only the feedback, not the numeric score. -/
def weakDetail (r : ZxcvbnResult) : String :=
  "Weak password:" ++ r.warning ++ spaceSep ++ String.intercalate spaceSep r.suggestions

/-- Python truth test of the zxcvbn check
`score < 3 or feedback.warning or feedback.suggestions`. -/
def weakPassword (r : ZxcvbnResult) : Prop :=
  r.score < 3 ∨ r.warning ≠ "" ∨ r.suggestions ≠ []

instance (r : ZxcvbnResult) : Decidable (weakPassword r) := by
  unfold weakPassword
  infer_instance

/-- Request body of `POST /auth/register` (`models/user_models.py`). -/
structure CreateUser where
  username : String
  password1 : String
  password2 : String
deriving DecidableEq

/-- Request body of `PUT /auth/update` (`models/user_models.py`). -/
structure UpdateUser where
  username : String
  password1 : String
  password2 : String
deriving DecidableEq

/-- Response of `POST /auth/register`: the username and the access token. -/
structure ResponseUser where
  username : String
  access_token : Token
deriving DecidableEq

/-- `create_access_token` (`app/routers/auth.py`): claims
`sub = username`, `id = user_id`, `exp = now + TTL`, signed with the
process key.  `key`, `ttl` and the clock `now` are ambient parameters. -/
def create_access_token (key ttl now : Nat) (username : String) (user_id : String) : Token :=
  jwtEncode key ⟨some username, some user_id, now + ttl⟩

/-- `register` (`POST /auth/register`): duplicate-username check, password
confirmation check, zxcvbn strength check, then insert and issue a token.
`freshId` is the `uuid4` default of the new row, `salt` the bcrypt salt. -/
def register (zx : String → String → ZxcvbnResult) (key ttl now : Nat)
    (freshId : String) (salt : Nat) (db : List User) (user : CreateUser) :
    List User × Except ApiError ResponseUser :=
  if (db.find? (fun u => u.username == user.username)).isSome then
    (db, .error ⟨400, "User already exists"⟩)
  else if user.password1 ≠ user.password2 then
    (db, .error ⟨400, "Passwords do not match"⟩)
  else
    let pswd_check := zx user.password1 user.username
    if weakPassword pswd_check then
      (db, .error ⟨400, weakDetail pswd_check⟩)
    else
      let new_user : User := ⟨freshId, user.username, bcrypt_hash salt user.password1⟩
      (db ++ [new_user],
       .ok ⟨new_user.username, create_access_token key ttl now new_user.username new_user.id⟩)

/-- `authenticate_user` (`app/routers/auth.py`): look the username up and
check the password against the stored digest with `bcrypt_context.verify`. -/
def authenticate_user (username password : String) (db : List User) :
    Except ApiError User :=
  match db.find? (fun u => u.username == username) with
  | none => .error ⟨400, "User does not exist"⟩
  | some u =>
    if bcrypt_verify password u.password then .ok u
    else .error ⟨400, "Incorrect password"⟩

/-- Replace the first element satisfying `p` by its image under `f`;
models an in-place attribute update of the row `query.first()` returned. -/
def updateFirst (p : α → Bool) (f : α → α) : List α → List α
  | [] => []
  | x :: xs => if p x then f x :: xs else x :: updateFirst p f xs

/-- Remove the first element satisfying `p`; models `db.delete` of the row
`query.first()` returned. -/
def eraseFirst (p : α → Bool) : List α → List α
  | [] => []
  | x :: xs => if p x then xs else x :: eraseFirst p xs

/-- Detail of the `AttributeError` raised when the authenticated user's row
has disappeared and `query.first()` returned `None` (message paraphrased,
without the quote characters of the Python text). -/
def noneRowDetail : String := "NoneType object has no attribute username"

/-- Detail of the `IntegrityError` raised at `db.commit()` when the new
username collides with the UNIQUE constraint of `users.username`
(message paraphrased). -/
def uniqueViolationDetail : String := "UNIQUE constraint failed: users.username"

/-- `update_user` (`PUT /auth/update`): password confirmation check, zxcvbn
strength check, then overwrite the authenticated user's username and
password digest.  The commit enforces the UNIQUE constraint of
`schemas/user.py` on `username`, surfacing as a 400 like every other
exception of the handler. -/
def update_user (zx : String → String → ZxcvbnResult) (salt : Nat)
    (db : List User) (user : Identity) (new_user : UpdateUser) :
    List User × Except ApiError String :=
  if new_user.password1 ≠ new_user.password2 then
    (db, .error ⟨400, "Passwords do not match"⟩)
  else
    let pswd_check := zx new_user.password1 new_user.username
    if weakPassword pswd_check then
      (db, .error ⟨400, weakDetail pswd_check⟩)
    else
      match db.find? (fun u => u.id == user.id) with
      | none => (db, .error ⟨400, noneRowDetail⟩)
      | some _ =>
        if db.any (fun u => u.id != user.id && u.username == new_user.username) then
          (db, .error ⟨400, uniqueViolationDetail⟩)
        else
          (updateFirst (fun u => u.id == user.id)
             (fun u => { u with username := new_user.username,
                                password := bcrypt_hash salt new_user.password1 }) db,
           .ok new_user.username)

/-- Detail of the error raised when `db.delete(None)` is attempted after the
authenticated user's row has disappeared (message paraphrased). -/
def unmappedDetail : String := "Class NoneType is not mapped"

/-- `delete_user` (`DELETE /auth/delete`): remove the authenticated user's
row and answer with its username.  Cascade deletion of the owned todos
follows from the relationship declared in `schemas/user.py`. -/
def delete_user (db : List User) (user : Identity) :
    List User × Except ApiError String :=
  match db.find? (fun u => u.id == user.id) with
  | none => (db, .error ⟨400, unmappedDetail⟩)
  | some u0 => (eraseFirst (fun u => u.id == user.id) db, .ok u0.username)

/-- A row of the `todos` table (`schemas/todo.py`): primary key `id`,
`task` text, `completed` flag (database default `False`), owner `user_id`. -/
structure Todo where
  id : String
  task : String
  completed : Bool
  user_id : String
deriving DecidableEq

/-- `GET /todos/list`: all todos of the current user. -/
def fetch_all_todos (user : Identity) (db : List Todo) : List Todo :=
  db.filter (fun t => t.user_id == user.id)

/-- `GET /todos/completed`: completed todos of the current user. -/
def fetch_completed_todos (user : Identity) (db : List Todo) : List Todo :=
  db.filter (fun t => t.completed == true && t.user_id == user.id)

/-- `GET /todos/pending`: pending todos of the current user. -/
def fetch_pending_todos (user : Identity) (db : List Todo) : List Todo :=
  db.filter (fun t => t.completed == false && t.user_id == user.id)

/-- Row filter shared by the single-todo handlers:
`Todo.id == todo_id, Todo.user_id == user["id"]`. -/
def ownedTodo (todo_id : String) (user : Identity) (t : Todo) : Bool :=
  t.id == todo_id && t.user_id == user.id

/-- `GET /todos/{todo_id}`: fetch one owned todo or 404. -/
def get_todo (todo_id : String) (user : Identity) (db : List Todo) :
    Except ApiError Todo :=
  match db.find? (ownedTodo todo_id user) with
  | none => .error ⟨404, "Todo not found"⟩
  | some t => .ok t

/-- Request body of `PATCH /todos/{todo_id}`: both fields optional. -/
structure UpdateTodo where
  task : Option String
  completed : Option Bool
deriving DecidableEq

/-- Python truth test of an optional string (`if todo.task:`): true only for
a present, non-empty string. -/
def truthyStr : Option String → Bool
  | none => false
  | some s => s != ""

/-- Python truth test of an optional bool (`if todo.completed:`): true only
for `some true`. -/
def truthyBool : Option Bool → Bool
  | none => false
  | some b => b

/-- `update_todo` (`PATCH /todos/{todo_id}`): 404 unless an owned row with
the id exists; then overwrite each field whose supplied value is truthy. -/
def update_todo (todo_id : String) (todo : UpdateTodo) (user : Identity)
    (db : List Todo) : List Todo × Except ApiError Todo :=
  match db.find? (ownedTodo todo_id user) with
  | none => (db, .error ⟨404, "Todo not found"⟩)
  | some t0 =>
    let t1 : Todo :=
      { t0 with
        task := if truthyStr todo.task then todo.task.getD t0.task else t0.task,
        completed := if truthyBool todo.completed then todo.completed.getD t0.completed
                     else t0.completed }
    (updateFirst (ownedTodo todo_id user) (fun _ => t1) db, .ok t1)

/-- `create_todo` (`POST /todos`): insert a new row owned by the current
user; `completed` takes the database default `False`, `freshId` the
`uuid4` default. -/
def create_todo (task : String) (user : Identity) (freshId : String)
    (db : List Todo) : List Todo × Todo :=
  let new_todo : Todo := ⟨freshId, task, false, user.id⟩
  (db ++ [new_todo], new_todo)

/-- `mark_as_completed` (`POST /todos/toggle_complete/{todo_id}`): 404 unless
an owned row with the id exists; then flip its `completed` flag. -/
def mark_as_completed (todo_id : String) (user : Identity) (db : List Todo) :
    List Todo × Except ApiError Todo :=
  match db.find? (ownedTodo todo_id user) with
  | none => (db, .error ⟨404, "Todo not found"⟩)
  | some t0 =>
    let t1 : Todo :=
      if t0.completed then { t0 with completed := false }
      else { t0 with completed := true }
    (updateFirst (ownedTodo todo_id user) (fun _ => t1) db, .ok t1)

/-- `delete_todo` (`DELETE /todos/{todo_id}`): 404 unless an owned row with
the id exists; then delete it and answer with the removed row. -/
def delete_todo (todo_id : String) (user : Identity) (db : List Todo) :
    List Todo × Except ApiError Todo :=
  match db.find? (ownedTodo todo_id user) with
  | none => (db, .error ⟨404, "Todo not found"⟩)
  | some t0 => (eraseFirst (ownedTodo todo_id user) db, .ok t0)

/-! ### Test fixtures shared by the closed witnesses below -/

def aliceName : String := "alice"

def bobName : String := "bob"

def uidA : String := "u1"

def uidB : String := "u2"

def tokA : Token := jwtEncode 1 ⟨some aliceName, some uidA, 5⟩

def aliceIdent : Identity := ⟨aliceName, uidA⟩

def aliceRow : User := ⟨uidA, aliceName, bcrypt_hash 0 aliceName⟩

def pwA : String := "correct horse battery staple"

def pwB : String := "correct horse battery stapler"

def zxStrong : String → String → ZxcvbnResult := fun _ _ => ⟨4, "", []⟩

def warnSample : String := "This is a top-10 common password"

def suggSample : String := "Add another word or two"

def zxScoreZero : String → String → ZxcvbnResult := fun _ _ => ⟨0, warnSample, [suggSample]⟩

def zxScoreTwo : String → String → ZxcvbnResult := fun _ _ => ⟨2, warnSample, [suggSample]⟩

def zxWarnOnly : String → String → ZxcvbnResult := fun _ _ => ⟨4, warnSample, []⟩

def regAlice : CreateUser := ⟨aliceName, pwA, pwA⟩

def dupMismatchReq : CreateUser := ⟨aliceName, pwA, pwB⟩

/-! ### Helper lemmas -/

/-- The code's weakness test matches the negation of the spec's acceptance
condition `score ≥ 3 ∧ no warning ∧ no suggestions`. -/
theorem weakPassword_iff (r : ZxcvbnResult) :
    weakPassword r ↔ ¬ (3 ≤ r.score ∧ r.warning = "" ∧ r.suggestions = []) := by
  unfold weakPassword
  constructor
  · rintro (h | h | h) ⟨h1, h2, h3⟩
    · omega
    · exact h h2
    · exact h h3
  · intro h
    by_cases h1 : r.score < 3
    · exact .inl h1
    · by_cases h2 : r.warning = ""
      · refine .inr (.inr ?_)
        intro h3
        exact h ⟨Nat.not_lt.mp h1, h2, h3⟩
      · exact .inr (.inl h2)

/-- Elements of `updateFirst p f l` come from `l`, possibly through `f`. -/
theorem mem_updateFirst {α : Type} {p : α → Bool} {f : α → α} {l : List α} {b : α}
    (h : b ∈ updateFirst p f l) :
    b ∈ l ∨ ∃ a, a ∈ l ∧ p a = true ∧ b = f a := by
  induction l with
  | nil => simp [updateFirst] at h
  | cons x xs ih =>
    by_cases hx : p x = true
    · simp only [updateFirst, hx, if_true] at h
      rcases List.mem_cons.mp h with h | h
      · exact .inr ⟨x, List.mem_cons_self x xs, hx, h⟩
      · exact .inl (List.mem_cons_of_mem x h)
    · simp only [updateFirst, hx, if_false] at h
      rcases List.mem_cons.mp h with h | h
      · exact .inl (h ▸ List.mem_cons_self x xs)
      · rcases ih h with h2 | ⟨a, ha, hpa, hb⟩
        · exact .inl (List.mem_cons_of_mem x h2)
        · exact .inr ⟨a, List.mem_cons_of_mem x ha, hpa, hb⟩

/-- An element not satisfying `p` survives `updateFirst` untouched. -/
theorem mem_updateFirst_of_neg {α : Type} {p : α → Bool} {f : α → α} {l : List α}
    {a : α} (ha : a ∈ l) (hpa : p a = false) : a ∈ updateFirst p f l := by
  induction l with
  | nil => cases ha
  | cons x xs ih =>
    rcases List.mem_cons.mp ha with h | h
    · subst h
      simp [updateFirst, hpa]
    · by_cases hx : p x = true
      · simp only [updateFirst, hx, if_true]
        exact List.mem_cons_of_mem _ h
      · simp only [updateFirst, hx, if_false]
        exact List.mem_cons_of_mem x (ih h)

/-- An element not satisfying `p` survives `eraseFirst`. -/
theorem mem_eraseFirst_of_neg {α : Type} {p : α → Bool} {l : List α}
    {a : α} (ha : a ∈ l) (hpa : p a = false) : a ∈ eraseFirst p l := by
  induction l with
  | nil => cases ha
  | cons x xs ih =>
    rcases List.mem_cons.mp ha with h | h
    · subst h
      simp [eraseFirst, hpa]
    · by_cases hx : p x = true
      · simpa only [eraseFirst, hx, if_true] using h
      · simp only [eraseFirst, hx, if_false]
        exact List.mem_cons_of_mem x (ih h)

/-- `eraseFirst` yields a sublist of the input. -/
theorem eraseFirst_sublist {α : Type} (p : α → Bool) (l : List α) :
    List.Sublist (eraseFirst p l) l := by
  induction l with
  | nil => simp [eraseFirst]
  | cons x xs ih =>
    by_cases hx : p x = true
    · simp only [eraseFirst, hx, if_true]
      exact List.sublist_cons_self x xs
    · simp only [eraseFirst, hx, if_false]
      exact ih.cons₂ x

/-- Replacing the row `find?` located by itself is the identity. -/
theorem updateFirst_self {α : Type} {p : α → Bool} {l : List α} {a : α}
    (h : l.find? p = some a) : updateFirst p (fun _ => a) l = l := by
  induction l with
  | nil => simp [List.find?] at h
  | cons x xs ih =>
    by_cases hx : p x = true
    · rw [List.find?_cons_of_pos xs hx] at h
      injection h with h
      subst h
      simp [updateFirst, hx]
    · rw [List.find?_cons_of_neg xs hx] at h
      simp [updateFirst, hx, ih h]

/-- The UNIQUE constraint of `users.username`: pairwise distinct usernames. -/
def usernamesUnique (db : List User) : Prop :=
  db.Pairwise (fun a b => a.username ≠ b.username)

/-- The primary-key property of `users.id`: pairwise distinct ids. -/
def idsUnique (db : List User) : Prop :=
  db.Pairwise (fun a b => a.id ≠ b.id)

/-- A registration hitting an existing username fails with the
duplicate-username error and returns the store unchanged. -/
theorem register_dup_of_isSome (zx : String → String → ZxcvbnResult)
    (key ttl now : Nat) (freshId : String) (salt : Nat) (db : List User)
    (u : CreateUser) (h : (db.find? (fun w => w.username == u.username)).isSome) :
    register zx key ttl now freshId salt db u =
      (db, .error ⟨400, "User already exists"⟩) := by
  simp [register, h]

/-- A successful registration appended exactly the new row, and the
username was free beforehand. -/
theorem register_ok_fst (zx : String → String → ZxcvbnResult)
    (key ttl now : Nat) (freshId : String) (salt : Nat) (db : List User)
    (u : CreateUser) (r : ResponseUser)
    (h : (register zx key ttl now freshId salt db u).2 = .ok r) :
    (register zx key ttl now freshId salt db u).1 =
      db ++ [⟨freshId, u.username, bcrypt_hash salt u.password1⟩]
    ∧ db.find? (fun w => w.username == u.username) = none := by
  by_cases h1 : (db.find? (fun w => w.username == u.username)).isSome
  · simp [register, h1] at h
  · by_cases h2 : u.password1 ≠ u.password2
    · simp [register, h1, h2] at h
    · have h2eq : u.password1 = u.password2 := not_ne_iff.mp h2
      by_cases h3 : weakPassword (zx u.password1 u.username)
      · simp [register, h1, ← h2eq, h3] at h
      · refine ⟨?_, Option.not_isSome_iff_eq_none.mp h1⟩
        simp [register, h1, ← h2eq, h3]

/-- The store a registration returns is either untouched or the input plus
the one new row, inserted only when the username was free. -/
theorem register_fst (zx : String → String → ZxcvbnResult)
    (key ttl now : Nat) (freshId : String) (salt : Nat) (db : List User)
    (u : CreateUser) :
    (register zx key ttl now freshId salt db u).1 = db
    ∨ ((register zx key ttl now freshId salt db u).1 =
        db ++ [⟨freshId, u.username, bcrypt_hash salt u.password1⟩]
      ∧ db.find? (fun w => w.username == u.username) = none) := by
  by_cases h1 : (db.find? (fun w => w.username == u.username)).isSome
  · left
    simp [register, h1]
  · by_cases h2 : u.password1 ≠ u.password2
    · left
      simp [register, h1, h2]
    · have h2eq : u.password1 = u.password2 := not_ne_iff.mp h2
      by_cases h3 : weakPassword (zx u.password1 u.username)
      · left
        simp [register, h1, ← h2eq, h3]
      · right
        refine ⟨?_, Option.not_isSome_iff_eq_none.mp h1⟩
        simp [register, h1, ← h2eq, h3]

/-- The store an update returns is either untouched or rewritten by
`updateFirst` on the caller's row, and in the latter case no other row
already held the new username (the UNIQUE constraint held at commit). -/
theorem update_user_fst (zx : String → String → ZxcvbnResult) (salt : Nat)
    (db : List User) (ident : Identity) (nu : UpdateUser) :
    (update_user zx salt db ident nu).1 = db
    ∨ ((update_user zx salt db ident nu).1 =
        updateFirst (fun v => v.id == ident.id)
          (fun v => { v with username := nu.username,
                             password := bcrypt_hash salt nu.password1 }) db
      ∧ ∀ v ∈ db, v.id ≠ ident.id → v.username ≠ nu.username) := by
  by_cases h1 : nu.password1 ≠ nu.password2
  · left
    simp [update_user, h1]
  · by_cases h2 : weakPassword (zx nu.password1 nu.username)
    · left
      simp [update_user, h1, h2]
    · cases h3 : db.find? (fun v => v.id == ident.id) with
      | none =>
        left
        simp [update_user, h1, h2, h3]
      | some v0 =>
        by_cases h4 : db.any (fun v => v.id != ident.id && v.username == nu.username) = true
        · left
          simp [update_user, h1, h2, h3, h4]
        · right
          constructor
          · simp [update_user, h1, h2, h3, h4]
          · intro v hv hvid hvname
            exact h4 (List.any_eq_true.mpr ⟨v, hv, by simp [hvid, hvname]⟩)

/-- Renaming the caller's row to a username no other row holds preserves
pairwise-distinct usernames, given pairwise-distinct primary keys. -/
theorem updateFirst_pairwise_username (db : List User) (id0 name : String)
    (d : Digest) (hdb : usernamesUnique db) (hids : idsUnique db)
    (hfree : ∀ v ∈ db, v.id ≠ id0 → v.username ≠ name) :
    usernamesUnique (updateFirst (fun u => u.id == id0)
      (fun u => { u with username := name, password := d }) db) := by
  induction db with
  | nil => exact List.Pairwise.nil
  | cons x xs ih =>
    rcases List.pairwise_cons.mp hdb with ⟨hx, hxs⟩
    rcases List.pairwise_cons.mp hids with ⟨hxid, hxsid⟩
    by_cases hx0 : (x.id == id0) = true
    · simp only [updateFirst, hx0, if_true]
      refine List.pairwise_cons.mpr ⟨?_, hxs⟩
      intro b hb
      have hxeq : x.id = id0 := by simpa using hx0
      have hbid : b.id ≠ id0 := by
        intro hbeq
        exact hxid b hb (by rw [hxeq, hbeq])
      have hbname := hfree b (List.mem_cons_of_mem x hb) hbid
      simpa using fun hcontra => hbname hcontra.symm
    · simp only [updateFirst, hx0, if_false]
      refine List.pairwise_cons.mpr ⟨?_, ih hxs hxsid ?_⟩
      · intro b hb
        rcases mem_updateFirst hb with h | ⟨a, ha, hpa, hbeq⟩
        · exact hx b h
        · subst hbeq
          have hxid0 : x.id ≠ id0 := by simpa using hx0
          have := hfree x (List.mem_cons_self x xs) hxid0
          simpa using this
      · intro v hv hvid
        exact hfree v (List.mem_cons_of_mem x hv) hvid

/-! ### Claim theorems -/

/-- Claim C2: on registration and on update a candidate password is rejected
with a 400 weak-password error unless its zxcvbn score is at least 3 and
both the feedback warning and the suggestion list are empty — any non-empty
feedback rejects regardless of score — and when the acceptance condition
holds the weak-password rejection does not fire. -/
theorem weak_password_policy (zx : String → String → ZxcvbnResult)
    (key ttl now salt : Nat) (freshId : String) (db : List User)
    (u : CreateUser) (ident : Identity) (nu : UpdateUser)
    (hnodup : db.find? (fun w => w.username == u.username) = none)
    (hm1 : u.password1 = u.password2)
    (hm2 : nu.password1 = nu.password2) :
    (¬ (3 ≤ (zx u.password1 u.username).score
        ∧ (zx u.password1 u.username).warning = ""
        ∧ (zx u.password1 u.username).suggestions = []) →
      register zx key ttl now freshId salt db u =
        (db, .error ⟨400, weakDetail (zx u.password1 u.username)⟩))
    ∧ ((3 ≤ (zx u.password1 u.username).score
        ∧ (zx u.password1 u.username).warning = ""
        ∧ (zx u.password1 u.username).suggestions = []) →
      (register zx key ttl now freshId salt db u).2 =
        .ok ⟨u.username, create_access_token key ttl now u.username freshId⟩)
    ∧ (¬ (3 ≤ (zx nu.password1 nu.username).score
        ∧ (zx nu.password1 nu.username).warning = ""
        ∧ (zx nu.password1 nu.username).suggestions = []) →
      update_user zx salt db ident nu =
        (db, .error ⟨400, weakDetail (zx nu.password1 nu.username)⟩))
    ∧ ((3 ≤ (zx nu.password1 nu.username).score
        ∧ (zx nu.password1 nu.username).warning = ""
        ∧ (zx nu.password1 nu.username).suggestions = []) →
      (update_user zx salt db ident nu).2 = .ok nu.username
      ∨ (update_user zx salt db ident nu).2 = .error ⟨400, noneRowDetail⟩
      ∨ (update_user zx salt db ident nu).2 = .error ⟨400, uniqueViolationDetail⟩) := by
  refine ⟨?_, ?_, ?_, ?_⟩
  · intro h
    have hw : weakPassword (zx u.password1 u.username) :=
      (weakPassword_iff (zx u.password1 u.username)).mpr h
    simp [register, hnodup, ← hm1, hw]
  · intro h
    have hw : ¬ weakPassword (zx u.password1 u.username) :=
      fun hw => (weakPassword_iff (zx u.password1 u.username)).mp hw h
    simp [register, hnodup, ← hm1, hw]
  · intro h
    have hw : weakPassword (zx nu.password1 nu.username) :=
      (weakPassword_iff (zx nu.password1 nu.username)).mpr h
    simp [update_user, ← hm2, hw]
  · intro h
    have hw : ¬ weakPassword (zx nu.password1 nu.username) :=
      fun hw => (weakPassword_iff (zx nu.password1 nu.username)).mp hw h
    cases hfind : db.find? (fun v => v.id == ident.id) with
    | none =>
      refine .inr (.inl ?_)
      simp [update_user, ← hm2, hw, hfind]
    | some v0 =>
      by_cases hany : ∃ x ∈ db, ¬ x.id = ident.id ∧ x.username = nu.username
      · refine .inr (.inr ?_)
        simp [update_user, ← hm2, hw, hfind, hany]
      · refine .inl ?_
        simp [update_user, ← hm2, hw, hfind, hany]

/-- Closed instance of the policy theorem: a password scoring 4 but carrying
a non-empty warning is rejected on registration, with the code's payload. -/
theorem weak_password_policy_witness :
    register zxWarnOnly 1 30 0 uidA 0 [] regAlice =
      ([], .error ⟨400, weakDetail ⟨4, warnSample, []⟩⟩) :=
  (weak_password_policy zxWarnOnly 1 30 0 0 uidA [] regAlice aliceIdent
      ⟨bobName, pwA, pwA⟩ rfl rfl rfl).1 (by decide)

/-- Counterexample to claim C6 as stated: with a duplicate username and
mismatched passwords, registration fails with the duplicate-username error,
not the password-mismatch one, because the duplicate-username storage read
runs before the confirmation check. -/
theorem register_mismatch_counterexample :
    dupMismatchReq.password1 ≠ dupMismatchReq.password2
    ∧ (register zxStrong 1 30 0 uidB 0 [aliceRow] dupMismatchReq).2 =
        .error ⟨400, "User already exists"⟩
    ∧ (register zxStrong 1 30 0 uidB 0 [aliceRow] dupMismatchReq).2 ≠
        .error ⟨400, "Passwords do not match"⟩ :=
  ⟨by decide, by decide, by decide⟩

/-- Claim C6 (amended): on update a password mismatch is always the first
rejection; on registration it is rejected whenever the username is not
already taken.  In both cases the 400 mismatch error is produced for every
strength oracle (so before any strength evaluation) and the store is
returned unchanged (so before any storage write); on registration the
duplicate-username storage read still precedes the check. -/
theorem password_mismatch_rejected (zx : String → String → ZxcvbnResult)
    (key ttl now salt : Nat) (freshId : String) (db : List User)
    (u : CreateUser) (ident : Identity) (nu : UpdateUser)
    (hnodup : db.find? (fun w => w.username == u.username) = none)
    (hne1 : u.password1 ≠ u.password2)
    (hne2 : nu.password1 ≠ nu.password2) :
    register zx key ttl now freshId salt db u =
      (db, .error ⟨400, "Passwords do not match"⟩)
    ∧ update_user zx salt db ident nu =
      (db, .error ⟨400, "Passwords do not match"⟩) := by
  constructor
  · simp [register, hnodup, hne1]
  · simp [update_user, hne2]

/-- Closed instance of the mismatch theorem at concrete requests. -/
theorem password_mismatch_rejected_witness :
    register zxStrong 1 30 0 uidA 0 [] ⟨aliceName, pwA, pwB⟩ =
      ([], .error ⟨400, "Passwords do not match"⟩)
    ∧ update_user zxStrong 0 [] aliceIdent ⟨bobName, pwA, pwB⟩ =
      ([], .error ⟨400, "Passwords do not match"⟩) :=
  password_mismatch_rejected zxStrong 1 30 0 0 uidA [] ⟨aliceName, pwA, pwB⟩
    aliceIdent ⟨bobName, pwA, pwB⟩ rfl (by decide) (by decide)

/-- Counterexample to claim C9 as stated: two weak-password rejections whose
strength scores differ but whose feedback coincides produce identical error
payloads, so the reported error does not carry the score. -/
theorem weak_error_omits_score :
    (zxScoreZero regAlice.password1 regAlice.username).score ≠
      (zxScoreTwo regAlice.password1 regAlice.username).score
    ∧ register zxScoreZero 1 30 0 uidA 0 [] regAlice =
        register zxScoreTwo 1 30 0 uidA 0 [] regAlice
    ∧ (register zxScoreZero 1 30 0 uidA 0 [] regAlice).2 =
        .error ⟨400, weakDetail ⟨0, warnSample, [suggSample]⟩⟩ :=
  ⟨by decide, by decide, by decide⟩

/-- Claim C9 (amended): a weak-password rejection on registration or update
is a 400 whose detail interpolates the feedback warning and the space-joined
suggestions; the numeric score is not part of the payload. -/
theorem weak_error_carries_feedback (zx : String → String → ZxcvbnResult)
    (key ttl now salt : Nat) (freshId : String) (db : List User)
    (u : CreateUser) (ident : Identity) (nu : UpdateUser)
    (hnodup : db.find? (fun w => w.username == u.username) = none)
    (hm1 : u.password1 = u.password2)
    (hm2 : nu.password1 = nu.password2)
    (hw1 : weakPassword (zx u.password1 u.username))
    (hw2 : weakPassword (zx nu.password1 nu.username)) :
    (register zx key ttl now freshId salt db u).2 =
      .error ⟨400, "Weak password:" ++ (zx u.password1 u.username).warning
        ++ spaceSep ++ String.intercalate spaceSep (zx u.password1 u.username).suggestions⟩
    ∧ (update_user zx salt db ident nu).2 =
      .error ⟨400, "Weak password:" ++ (zx nu.password1 nu.username).warning
        ++ spaceSep ++ String.intercalate spaceSep (zx nu.password1 nu.username).suggestions⟩ := by
  constructor
  · simp [register, hnodup, ← hm1, hw1, weakDetail]
  · simp [update_user, ← hm2, hw2, weakDetail]

/-- Closed instance of the feedback theorem at a concrete weak password. -/
theorem weak_error_carries_feedback_witness :
    (register zxScoreZero 1 30 0 uidA 0 [] regAlice).2 =
      .error ⟨400, "Weak password:" ++ warnSample ++ spaceSep
        ++ String.intercalate spaceSep [suggSample]⟩ :=
  (weak_error_carries_feedback zxScoreZero 1 30 0 0 uidA [] regAlice aliceIdent
    ⟨bobName, pwA, pwA⟩ rfl rfl rfl (by decide) (by decide)).1

/-- Claim C8: bcrypt hashing with two distinct fresh salts yields two
distinct digests for the same plaintext, verification succeeds for each of
them, and `authenticate_user` accepts the password against a stored digest
produced with any salt — digests are compared only through `verify`, never
for equality. -/
theorem salted_hash_properties (p username uid : String) (s1 s2 dbsalt : Nat)
    (db : List User) (hs : s1 ≠ s2) :
    bcrypt_hash s1 p ≠ bcrypt_hash s2 p
    ∧ bcrypt_verify p (bcrypt_hash s1 p) = true
    ∧ bcrypt_verify p (bcrypt_hash s2 p) = true
    ∧ authenticate_user username p (⟨uid, username, bcrypt_hash dbsalt p⟩ :: db) =
        .ok ⟨uid, username, bcrypt_hash dbsalt p⟩ := by
  refine ⟨?_, by simp [bcrypt_verify, bcrypt_hash], by simp [bcrypt_verify, bcrypt_hash], ?_⟩
  · intro h
    exact hs (congrArg Digest.salt h)
  · simp [authenticate_user, List.find?, bcrypt_verify, bcrypt_hash]

/-- Closed instance of the hashing theorem at concrete salts. -/
theorem salted_hash_properties_witness :
    bcrypt_hash 0 pwA ≠ bcrypt_hash 1 pwA
    ∧ bcrypt_verify pwA (bcrypt_hash 0 pwA) = true
    ∧ bcrypt_verify pwA (bcrypt_hash 1 pwA) = true
    ∧ authenticate_user aliceName pwA [⟨uidA, aliceName, bcrypt_hash 5 pwA⟩] =
        .ok ⟨uidA, aliceName, bcrypt_hash 5 pwA⟩ :=
  salted_hash_properties pwA aliceName uidA 0 1 5 [] (by decide)

def bobReq : CreateUser := ⟨bobName, pwA, pwA⟩

def bobReq2 : CreateUser := ⟨bobName, pwB, pwB⟩

/-- Claim C7: pairwise-distinct usernames are preserved by registration,
update and deletion (so every reachable store keeps one `User` per
username); registering an existing username fails with the
duplicate-username error and the store unchanged; and of two registrations
carrying the same username, whichever runs second fails. -/
theorem username_uniqueness (zx zx2 : String → String → ZxcvbnResult)
    (key ttl now salt key2 ttl2 now2 salt2 : Nat) (freshId freshId2 : String)
    (db : List User) (u u1 u2 : CreateUser) (ident : Identity) (nu : UpdateUser)
    (hdb : usernamesUnique db) (hids : idsUnique db)
    (hsame : u2.username = u1.username) :
    usernamesUnique (register zx key ttl now freshId salt db u).1
    ∧ usernamesUnique (update_user zx salt db ident nu).1
    ∧ usernamesUnique (delete_user db ident).1
    ∧ ((db.find? (fun w => w.username == u.username)).isSome →
        register zx key ttl now freshId salt db u =
          (db, .error ⟨400, "User already exists"⟩))
    ∧ (∀ r, (register zx key ttl now freshId salt db u1).2 = .ok r →
        (register zx2 key2 ttl2 now2 freshId2 salt2
            (register zx key ttl now freshId salt db u1).1 u2).2 =
          .error ⟨400, "User already exists"⟩) := by
  refine ⟨?_, ?_, ?_, register_dup_of_isSome zx key ttl now freshId salt db u, ?_⟩
  · rcases register_fst zx key ttl now freshId salt db u with h | ⟨h, hnone⟩
    · rw [h]
      exact hdb
    · rw [h]
      refine List.pairwise_append.mpr ⟨hdb, by simp, ?_⟩
      intro a ha b hb
      have hb2 := List.mem_singleton.mp hb
      subst hb2
      have := List.find?_eq_none.mp hnone a ha
      simpa using this
  · rcases update_user_fst zx salt db ident nu with h | ⟨h, hfree⟩
    · rw [h]
      exact hdb
    · rw [h]
      exact updateFirst_pairwise_username db ident.id nu.username
        (bcrypt_hash salt nu.password1) hdb hids hfree
  · cases h : db.find? (fun v => v.id == ident.id) with
    | none => simpa [delete_user, h] using hdb
    | some v0 =>
      have hdb2 : List.Pairwise (fun a b => a.username ≠ b.username) db := hdb
      have hsub : usernamesUnique (eraseFirst (fun v => v.id == ident.id) db) :=
        hdb2.sublist (eraseFirst_sublist _ db)
      simpa [delete_user, h] using hsub
  · intro r h
    obtain ⟨hfst, hnone⟩ := register_ok_fst zx key ttl now freshId salt db u1 r h
    have hsomev : ((register zx key ttl now freshId salt db u1).1.find?
        (fun w => w.username == u2.username)).isSome := by
      rw [hfst]
      refine List.find?_isSome.mpr
        ⟨⟨freshId, u1.username, bcrypt_hash salt u1.password1⟩, ?_, ?_⟩
      · exact List.mem_append_right _ (List.mem_singleton.mpr rfl)
      · simp [hsame]
    rw [register_dup_of_isSome zx2 key2 ttl2 now2 freshId2 salt2 _ u2 hsomev]

/-- Closed instance: after bob registers into alice's store, a second
registration for the username bob fails with the duplicate error. -/
theorem username_uniqueness_witness :
    (register zxStrong 1 30 0 uidB 0
        ((register zxStrong 1 30 0 uidB 0 [aliceRow] bobReq).1) bobReq2).2 =
      .error ⟨400, "User already exists"⟩ :=
  (username_uniqueness zxStrong zxStrong 1 30 0 0 1 30 0 0 uidB uidB [aliceRow]
      regAlice bobReq bobReq2 aliceIdent ⟨bobName, pwA, pwA⟩ (by simp [usernamesUnique])
      (by simp [idsUnique]) rfl).2.2.2.2
    ⟨bobName, create_access_token 1 30 0 bobName uidB⟩ (by decide)

/-- Claim C1: for a token whose signature verifies, whose expiry is not in
the past, and which carries both the `sub` and `id` claims, identity
resolution fails with 401 exactly when the embedded user id has no row in
the store passed for this request, and succeeds when it has one — the live
per-request lookup alone decides between the two. -/
theorem resolver_rejects_deleted_user (key now : Nat) (t : Token) (db : List User)
    (username user_id : String)
    (hsig : t.sig = sigOf key t.payload)
    (hexp : ¬ t.payload.exp < now)
    (hsub : t.payload.sub = some username)
    (hid : t.payload.id = some user_id) :
    (db.find? (fun u => u.id == user_id) = none →
      get_current_user key now (some t) db = .error ⟨401, invalidUserDetail⟩)
    ∧ (∀ u0, db.find? (fun u => u.id == user_id) = some u0 →
      get_current_user key now (some t) db = .ok ⟨username, user_id⟩) := by
  constructor
  · intro hnone
    simp [get_current_user, jwtDecode, hsig, hexp, hsub, hid, hnone]
  · intro u0 hsome
    simp [get_current_user, jwtDecode, hsig, hexp, hsub, hid, hsome]

/-- Closed instance of the previous theorem: the token `tokA` resolves
against a store holding alice's row and is rejected against the empty
store, at concrete inputs. -/
theorem resolver_rejects_deleted_user_witness :
    get_current_user 1 0 (some tokA) [] = .error ⟨401, invalidUserDetail⟩
    ∧ get_current_user 1 0 (some tokA) [aliceRow] = .ok ⟨aliceName, uidA⟩ :=
  ⟨(resolver_rejects_deleted_user 1 0 tokA [] aliceName uidA rfl (by decide)
      rfl rfl).1 rfl,
   (resolver_rejects_deleted_user 1 0 tokA [aliceRow] aliceName uidA rfl (by decide)
      rfl rfl).2 aliceRow (by decide)⟩

/-- Claim C3: per request the resolver ends in exactly one of two terminal
states — a 401 error, which happens only when the token is absent, its
signature is bad, it is expired, a claim is missing, or the id resolves to
no stored user — or a resolved identity consisting precisely of the
`sub` and `id` claims of the token. -/
theorem resolver_two_outcomes (key now : Nat) (token : Option Token) (db : List User) :
    (∃ d, get_current_user key now token db = .error ⟨401, d⟩ ∧
      (token = none ∨ ∃ t, token = some t ∧
        (t.sig ≠ sigOf key t.payload ∨ t.payload.exp < now ∨
         t.payload.sub = none ∨ t.payload.id = none ∨
         (∀ i, t.payload.id = some i → db.find? (fun u => u.id == i) = none))))
    ∨ (∃ t username user_id, token = some t ∧
        t.payload.sub = some username ∧ t.payload.id = some user_id ∧
        get_current_user key now token db = .ok ⟨username, user_id⟩) := by
  cases token with
  | none => exact .inl ⟨notAuthDetail, rfl, .inl rfl⟩
  | some t =>
    by_cases hsig : t.sig = sigOf key t.payload
    · by_cases hexp : t.payload.exp < now
      · refine .inl ⟨invalidTokenDetail, ?_, .inr ⟨t, rfl, .inr (.inl hexp)⟩⟩
        simp [get_current_user, jwtDecode, hsig, hexp]
      · cases hsub : t.payload.sub with
        | none =>
          refine .inl ⟨invalidUserDetail, ?_, .inr ⟨t, rfl, .inr (.inr (.inl hsub))⟩⟩
          simp [get_current_user, jwtDecode, hsig, hexp, hsub]
        | some username =>
          cases hid : t.payload.id with
          | none =>
            refine .inl ⟨invalidUserDetail, ?_,
              .inr ⟨t, rfl, .inr (.inr (.inr (.inl hid)))⟩⟩
            simp [get_current_user, jwtDecode, hsig, hexp, hsub, hid]
          | some user_id =>
            cases hfind : db.find? (fun u => u.id == user_id) with
            | none =>
              refine .inl ⟨invalidUserDetail, ?_,
                .inr ⟨t, rfl, .inr (.inr (.inr (.inr ?_)))⟩⟩
              · simp [get_current_user, jwtDecode, hsig, hexp, hsub, hid, hfind]
              · intro i hi
                rw [hid] at hi
                cases hi
                exact hfind
            | some u0 =>
              refine .inr ⟨t, username, user_id, rfl, hsub, hid, ?_⟩
              simp [get_current_user, jwtDecode, hsig, hexp, hsub, hid, hfind]
    · refine .inl ⟨invalidTokenDetail, ?_, .inr ⟨t, rfl, .inl hsig⟩⟩
      simp [get_current_user, jwtDecode, hsig]

/-- Claim C5: a token issued by `create_access_token` carries exactly the
claims `sub = username`, `id = user_id`, `exp = now + TTL`, and decoding it
immediately after issuance under the same key succeeds and returns those
claims unchanged. -/
theorem token_roundtrip (key ttl now : Nat) (username user_id : String) :
    (create_access_token key ttl now username user_id).payload =
      ⟨some username, some user_id, now + ttl⟩
    ∧ jwtDecode key now (create_access_token key ttl now username user_id) =
      .ok ⟨some username, some user_id, now + ttl⟩ := by
  refine ⟨rfl, ?_⟩
  simp [create_access_token, jwtEncode, jwtDecode]

def emptyStr : String := ""

def taskSample : String := "sample task"

def todoA : Todo := ⟨"t1", "buy milk", true, uidA⟩

def todoB : Todo := ⟨"t2", "other task", false, uidB⟩

/-- Claim C4: every task handler restricts itself to rows owned by the
resolved identity — the list endpoints return only the caller's rows; a
fetched row is an owned row with the requested id; when every row bearing
the requested id belongs to someone else, the four id-addressed handlers
answer 404 with the store unchanged, as if the row were absent; rows of
other users survive patch, toggle and delete untouched; and a created row
is owned by the caller. -/
theorem owner_scoping (user : Identity) (db : List Todo)
    (todo_id freshId task : String) (patch : UpdateTodo) :
    (∀ t ∈ fetch_all_todos user db, t.user_id = user.id)
    ∧ (∀ t ∈ fetch_completed_todos user db, t.user_id = user.id)
    ∧ (∀ t ∈ fetch_pending_todos user db, t.user_id = user.id)
    ∧ (∀ t, get_todo todo_id user db = .ok t →
        t ∈ db ∧ t.id = todo_id ∧ t.user_id = user.id)
    ∧ ((∀ t ∈ db, t.id = todo_id → t.user_id ≠ user.id) →
        get_todo todo_id user db = .error ⟨404, "Todo not found"⟩
        ∧ update_todo todo_id patch user db = (db, .error ⟨404, "Todo not found"⟩)
        ∧ mark_as_completed todo_id user db = (db, .error ⟨404, "Todo not found"⟩)
        ∧ delete_todo todo_id user db = (db, .error ⟨404, "Todo not found"⟩))
    ∧ (∀ t ∈ db, t.user_id ≠ user.id →
        t ∈ (update_todo todo_id patch user db).1
        ∧ t ∈ (mark_as_completed todo_id user db).1
        ∧ t ∈ (delete_todo todo_id user db).1)
    ∧ (create_todo task user freshId db).2.user_id = user.id
    ∧ (create_todo task user freshId db).1 =
        db ++ [(create_todo task user freshId db).2] := by
  refine ⟨?_, ?_, ?_, ?_, ?_, ?_, rfl, rfl⟩
  · intro t ht
    have := (List.mem_filter.mp ht).2
    simpa using this
  · intro t ht
    have h2 := (List.mem_filter.mp ht).2
    simp only [Bool.and_eq_true, beq_iff_eq] at h2
    exact h2.2
  · intro t ht
    have h2 := (List.mem_filter.mp ht).2
    simp only [Bool.and_eq_true, beq_iff_eq] at h2
    exact h2.2
  · intro t h
    cases hfind : db.find? (ownedTodo todo_id user) with
    | none => simp [get_todo, hfind] at h
    | some t0 =>
      have h0 : t0 = t := by simpa [get_todo, hfind] using h
      subst h0
      have hmem := List.mem_of_find?_eq_some hfind
      have hp := List.find?_some hfind
      have hsplit : t0.id = todo_id ∧ t0.user_id = user.id := by
        simpa [ownedTodo] using hp
      exact ⟨hmem, hsplit.1, hsplit.2⟩
  · intro hall
    have hfind : db.find? (ownedTodo todo_id user) = none := by
      refine List.find?_eq_none.mpr ?_
      intro x hx hpx
      have hsplit : x.id = todo_id ∧ x.user_id = user.id := by
        simpa [ownedTodo] using hpx
      exact hall x hx hsplit.1 hsplit.2
    exact ⟨by simp [get_todo, hfind], by simp [update_todo, hfind],
      by simp [mark_as_completed, hfind], by simp [delete_todo, hfind]⟩
  · intro t ht hid
    have hp : ownedTodo todo_id user t = false := by
      simp [ownedTodo, hid]
    refine ⟨?_, ?_, ?_⟩
    · cases hfind : db.find? (ownedTodo todo_id user) with
      | none => simpa [update_todo, hfind] using ht
      | some t0 =>
        simp only [update_todo, hfind]
        exact mem_updateFirst_of_neg ht hp
    · cases hfind : db.find? (ownedTodo todo_id user) with
      | none => simpa [mark_as_completed, hfind] using ht
      | some t0 =>
        simp only [mark_as_completed, hfind]
        exact mem_updateFirst_of_neg ht hp
    · cases hfind : db.find? (ownedTodo todo_id user) with
      | none => simpa [delete_todo, hfind] using ht
      | some t0 =>
        simp only [delete_todo, hfind]
        exact mem_eraseFirst_of_neg ht hp

/-- Closed instance: alice addressing bob's todo id gets a 404 from the
single-row read and from deletion, which leaves the store unchanged. -/
theorem owner_scoping_witness :
    get_todo todoB.id aliceIdent [todoB] = .error ⟨404, "Todo not found"⟩
    ∧ delete_todo todoB.id aliceIdent [todoB] =
        ([todoB], .error ⟨404, "Todo not found"⟩) :=
  have h := (owner_scoping aliceIdent [todoB] todoB.id uidA taskSample
    ⟨none, none⟩).2.2.2.2.1 (by decide)
  ⟨h.1, h.2.2.2⟩

/-- Claim C10: on an owned todo, PATCH fields with falsy values are
silently ignored: `completed = false` and `task = ""` leave the row exactly
as it was — in particular a completed todo stays completed — and the
request still succeeds, returning the unmodified todo. -/
theorem falsy_patch_fields_ignored (user : Identity) (db : List Todo) (t0 : Todo)
    (hfind : db.find? (ownedTodo t0.id user) = some t0) :
    update_todo t0.id ⟨none, some false⟩ user db = (db, .ok t0)
    ∧ update_todo t0.id ⟨some emptyStr, none⟩ user db = (db, .ok t0)
    ∧ update_todo t0.id ⟨some emptyStr, some false⟩ user db = (db, .ok t0) := by
  have hupd := updateFirst_self hfind
  refine ⟨?_, ?_, ?_⟩ <;>
    simp [update_todo, hfind, truthyStr, truthyBool, emptyStr, hupd]

/-- Closed instance: patching alice's completed todo with
`completed = false` and with an empty task string returns it unchanged. -/
theorem falsy_patch_fields_ignored_witness :
    update_todo todoA.id ⟨none, some false⟩ aliceIdent [todoA] = ([todoA], .ok todoA)
    ∧ update_todo todoA.id ⟨some emptyStr, some false⟩ aliceIdent [todoA] =
        ([todoA], .ok todoA) :=
  have h := falsy_patch_fields_ignored aliceIdent [todoA] todoA (by decide)
  ⟨h.1, h.2.2⟩

end TodoApp
